import Mathlib

/-!
Verification development for the sublemacspro command-mediation layer
(`jove.py`).  The definitions below are a shallow embedding of the
per-buffer interaction state (`ViewState`), the command interception
pipeline (`CmdWatcher.on_text_command`, `on_post_text_command`,
`on_selection_modified`, the `on_modified` watchers), the prefix-argument
accumulator (`SbpUniversalArgumentCommand`), the repeat wrapper
(`SbpDoTimesCommand`), the incremental-search escape command
(`SbpIncSearchEscapeCommand`) and the move-then-delete kill transaction
(`MoveThenDeleteHelper.finish`).

Buffer positions are modelled as natural numbers.  A host `sublime.Region`
is an (anchor `a`, active point `b`) pair; `begin`/`end_`/`contains` and
the comparison used by `old < new` follow the host API (inclusive
`contains`, ordering by `begin` then `end`).  Command argument
dictionaries are modelled as association lists of string keys and
Python-like values with Python truthiness.  The host `Selection`
container is modelled as the regions kept in document order (an ordered
cursor/region sequence); what the host does beyond ordering is external
collaborator behaviour, not part of the embedded algorithms.
-/

set_option autoImplicit false

namespace Jove

/-- A host text region: anchor `a` and active end `b` (buffer offsets). -/
structure Region where
  a : Nat
  b : Nat
  deriving DecidableEq, Repr

/-- Host `Region.begin()`: the smaller endpoint. -/
def Region.begin (r : Region) : Nat := min r.a r.b

/-- Host `Region.end()`: the larger endpoint. -/
def Region.end_ (r : Region) : Nat := max r.a r.b

/-- Host `Region.contains(pt)`: `begin() <= pt <= end()` (inclusive). -/
def Region.contains (r : Region) (pt : Nat) : Bool :=
  decide (r.begin ≤ pt) && decide (pt ≤ r.end_)

/-- Host `Region.__lt__`: compare by `begin()`, ties broken by `end()`. -/
def Region.lt (r s : Region) : Bool :=
  if r.begin = s.begin then decide (r.end_ < s.end_) else decide (r.begin < s.begin)

/-- An empty region sitting at a single point `p` (a plain cursor). -/
def pointRegion (p : Nat) : Region := ⟨p, p⟩

/-- A Python value stored in a command-arguments dictionary. -/
inductive Value where
  | int (i : Int)
  | str (s : String)
  | bool (b : Bool)
  | dict (d : List (String × Value))

/-- Command arguments: a Python dict modelled as an association list. -/
abbrev Args := List (String × Value)

/-- Python truthiness of a `Value` (`0`, `""`, `False`, `{}` are falsy). -/
def Value.truthy : Value → Bool
  | .int i => i != 0
  | .str s => s != ""
  | .bool b => b
  | .dict d => !d.isEmpty

/-- Dict lookup: `args[k]` as an `Option`. -/
def Args.get? : Args → String → Option Value
  | [], _ => none
  | (k, v) :: rest, key => if k = key then some v else Args.get? rest key

/-- Dict store `args[k] = v`: replace in place, or append a new key. -/
def Args.set : Args → String → Value → Args
  | [], key, v => [(key, v)]
  | (k, w) :: rest, key, v =>
      if k = key then (k, v) :: rest else (k, w) :: Args.set rest key v

/-- Dict deletion `del args[k]` (used to model keyword-argument splitting). -/
def Args.remove : Args → String → Args
  | [], _ => []
  | (k, w) :: rest, key =>
      if k = key then Args.remove rest key else (k, w) :: Args.remove rest key

/-- Python `k in args`. -/
def Args.containsKey (args : Args) (key : String) : Bool :=
  (Args.get? args key).isSome

/-- Python `args.get(k, False)` followed by a truthiness test. -/
def argTruthy (args : Args) (key : String) : Bool :=
  match Args.get? args key with
  | some v => v.truthy
  | none => false

/-- Python `s.startswith(pre)`, used for the pipeline's reserved-name
test `cmd.startswith("sbp_")`. -/
def startswith (s pre : String) : Bool :=
  pre.data.isPrefixOf s.data

/-- Modelled from the spec: the per-buffer Interaction State (`class
ViewState` lives in `lib/misc.py`, which is not under `src/`; the fields
are those of spec section 3 that the `src/jove.py` hooks read and write).
`this_cmd`/`last_cmd` are `None` (here `none`) when unset. -/
structure ViewState where
  this_cmd : Option String
  last_cmd : Option String
  argument_value : Int
  argument_supplied : Bool
  argument_negative : Bool
  active_mark : Bool
  drag_count : Nat
  mark_ring : List (List Region)
  deriving Repr

/-- Modelled from the spec: a fresh Interaction State, no argument
supplied, no active mark, nothing remembered. -/
def ViewState.initial : ViewState :=
  { this_cmd := none
    last_cmd := none
    argument_value := 0
    argument_supplied := false
    argument_negative := false
    active_mark := false
    drag_count := 0
    mark_ring := [] }

/-- Modelled from the spec: `ViewState.get_count` (in `lib/misc.py`, not
under `src/`): the resolved prefix-argument count, default 1 when no
argument was supplied; a bare leading negate means -1 ("value defaulting
to -1 semantics"), otherwise the negate flag negates the value. -/
def ViewState.get_count (vs : ViewState) : Int :=
  if vs.argument_supplied then
    if vs.argument_negative then
      if vs.argument_value = 0 then -1 else -vs.argument_value
    else vs.argument_value
  else 1

/-- Modelled from the spec: `CmdUtil.toggle_active_mark_mode` (in
`lib/misc.py`, not under `src/`): "flips or sets `activeMark`; when
turning off, must not alter the current selection shape". -/
def toggle_active_mark_mode (vs : ViewState) (value : Option Bool) : ViewState :=
  match value with
  | some b => { vs with active_mark := b }
  | none => { vs with active_mark := !vs.active_mark }

/-- Modelled from the spec: `CmdUtil.set_mark(regions, and_selection)` (in
`lib/misc.py`, not under `src/`): "pushes the ... cursor set onto the
mark ring". -/
def set_mark (vs : ViewState) (regions : List Region) : ViewState :=
  { vs with mark_ring := regions :: vs.mark_ring }

/-- `repeatable_cmds` from `src/jove.py` line 18. -/
def repeatable_cmds : List String :=
  ["move", "left_delete", "right_delete", "undo", "redo"]

/-- A token fed to `SbpUniversalArgumentCommand.run_cmd` as its `value`
argument: an integer digit, the string `"by_four"`, or `"negative"`. -/
inductive UToken where
  | by_four
  | negative
  | int (n : Int)

/-- `SbpUniversalArgumentCommand.run_cmd` (`src/jove.py` lines 663-680):
the prefix-argument accumulator transition for one token. -/
def sbp_universal_argument (state : ViewState) (value : UToken) : ViewState :=
  if state.argument_supplied = false then
    let st := { state with argument_supplied := true }
    match value with
    | .by_four => { st with argument_value := 4 }
    | .negative => { st with argument_negative := true }
    | .int v => { st with argument_value := v }
  else
    match value with
    | .by_four => { state with argument_value := state.argument_value * 4 }
    | .int v => { state with argument_value := state.argument_value * 10 + v }
    | .negative => { state with argument_value := -state.argument_value }

/-- Feeding a whole token sequence to the accumulator, left to right. -/
def applyUTokens (st : ViewState) (ts : List UToken) : ViewState :=
  ts.foldl sbp_universal_argument st

/-- A decimal digit as the integer token the keymap feeds to
`sbp_universal_argument`. -/
def digitToken (d : Nat) : UToken := UToken.int (d : Int)

/-- The base-10 integer a big-endian digit list spells (spec side:
"the base-10 integer those digits spell"). -/
def specDigits : List Nat → Nat
  | [] => 0
  | d :: tl => d * 10 ^ tl.length + specDigits tl

/-- A side effect the pipeline asks an external collaborator to perform. -/
inductive Effect where
  | isearchDone
  | runCommand (cmd : String) (args : Args)
  | setCursorsToRegions
  | ensureVisible

/-- Result of the pre-dispatch hook: the updated interaction state and
the optional command rewrite returned to the host (`none` means the
incoming command runs unmodified). -/
structure TextCmdResult where
  vs : ViewState
  rewrite : Option (String × Args)

/-- Python `args['forward'] = not args['forward']` (guarded by
`'forward' in args` in the source, so the `none` branch is dead there). -/
def flipForward (args : Args) : Args :=
  match Args.get? args "forward" with
  | some v => Args.set args "forward" (Value.bool (!v.truthy))
  | none => args

/-- Python `args['amount'] *= count` for the `scroll_lines` branch (a
missing or non-integer `amount` would raise in Python; real
`scroll_lines` invocations always carry an integer `amount`). -/
def scaleAmount (args : Args) (count : Int) : Args :=
  match Args.get? args "amount" with
  | some (Value.int i) => Args.set args "amount" (Value.int (i * count))
  | _ => args

/-- The argument dictionary built by the repeat-rewrite branch of
`CmdWatcher.on_text_command` (`src/jove.py` lines 140-148):
`args.update({'cmd': cmd, '_times': abs(count)})`, then, when the count is
negative and `'forward' in args`, invert the `forward` flag once. -/
def doTimesArgs (count : Int) (cmd : String) (args : Args) : Args :=
  let args1 := Args.set (Args.set args "cmd" (Value.str cmd)) "_times"
    (Value.int (count.natAbs : Int))
  if count < 0 ∧ Args.containsKey args1 "forward" = true then flipForward args1
  else args1

/-- `CmdWatcher.on_text_command` (`src/jove.py` lines 97-151), the
pre-dispatch hook.  `isearchOpen` models `isearch_info_for(view) is not
None`.  The `info.done()` call inside the `drag_select` branch is dead
code (it is only reached when no search session is open) and the
status-bar erase in `on_anything` is a pure display effect, so neither
appears here. -/
def on_text_command (isearchOpen : Bool) (vs : ViewState) (cmd : String)
    (args : Args) : TextCmdResult :=
  if isearchOpen then
    if cmd ≠ "sbp_inc_search" ∧ cmd ≠ "sbp_inc_search_escape" then
      { vs := vs
        rewrite := some ("sbp_inc_search_escape",
          [("next_cmd", Value.str cmd), ("next_args", Value.dict args)]) }
    else
      { vs := vs, rewrite := none }
  else
    let vs1 := if startswith cmd "sbp_" = false then { vs with this_cmd := some cmd } else vs
    let vs2 :=
      if cmd = "drag_select" then
        { vs1 with drag_count := if Args.containsKey args "by" then 2 else 0 }
      else vs1
    if (cmd = "move" ∨ cmd = "move_to") ∧ vs2.active_mark = true ∧
        argTruthy args "extend" = false then
      { vs := vs2, rewrite := some (cmd, Args.set args "extend" (Value.bool true)) }
    else if vs2.argument_supplied = false then
      { vs := vs2, rewrite := none }
    else if cmd ∈ repeatable_cmds then
      { vs := vs2, rewrite := some ("sbp_do_times", doTimesArgs vs2.get_count cmd args) }
    else if cmd = "scroll_lines" then
      { vs := vs2, rewrite := some (cmd, scaleAmount args vs2.get_count) }
    else
      { vs := vs2, rewrite := none }

/-- Modelled from the spec: `ensure_visible_cmds` (defined in
`lib/misc.py`, not under `src/`): the commands "marked ensure visible". -/
def ensure_visible_cmds : List String := ["move", "move_to"]

/-- `CmdWatcher.on_post_text_command` (`src/jove.py` lines 156-182), the
post-dispatch hook.  `justOne` models `cm.just_one_cursor()`; the
returned effect list records the collaborator calls
(`cm.set_cursors(cm.get_regions())` and `cm.ensure_visible`). -/
def on_post_text_command (vs : ViewState) (cmd : String) (justOne : Bool) :
    ViewState × List Effect :=
  let vs1 :=
    if vs.active_mark = true ∧ vs.this_cmd ≠ some "drag_select" ∧
        vs.last_cmd = some "drag_select" then
      if cmd ≠ "context_menu" then toggle_active_mark_mode vs (some false) else vs
    else vs
  let vs2 :=
    if startswith cmd "sbp_" = false then
      { vs1 with argument_value := 0, argument_supplied := false, last_cmd := some cmd }
    else vs1
  let eff1 : List Effect :=
    if vs2.active_mark = true then [Effect.setCursorsToRegions] else []
  let eff2 : List Effect :=
    if cmd ∈ ensure_visible_cmds ∧ justOne = true then [Effect.ensureVisible] else []
  (vs2, eff1 ++ eff2)

/-- `CmdWatcher.on_selection_modified` (`src/jove.py` lines 187-200):
selection-changed notification handling for mouse drags.  Note that the
final `vs.drag_count += 1` sits outside the conditional in the source,
so it runs on every notification. -/
def on_selection_modified (vs : ViewState) (selection : List Region) : ViewState :=
  let vs1 :=
    if selection.length = 1 ∧ vs.this_cmd = some "drag_select" then
      if vs.drag_count = 2 then
        match selection with
        | r :: _ =>
            toggle_active_mark_mode (set_mark vs [Region.mk r.a r.a]) (some true)
        | [] => vs
      else if vs.drag_count = 0 then
        toggle_active_mark_mode vs (some false)
      else vs
    else vs
  { vs1 with drag_count := vs1.drag_count + 1 }

/-- `ViewWatcher.on_modified` (`src/jove.py` lines 28-29):
`CmdUtil(view).toggle_active_mark_mode(False)`. -/
def viewWatcher_on_modified (vs : ViewState) : ViewState :=
  toggle_active_mark_mode vs (some false)

/-- `CmdWatcher.on_modified` (`src/jove.py` lines 206-208):
`ViewState.get(view).this_cmd = None`. -/
def cmdWatcher_on_modified (vs : ViewState) : ViewState :=
  { vs with this_cmd := none }

/-- The loop body of `SbpDoTimesCommand.run_cmd` (`src/jove.py` lines
250-265): `for i in range(_times): window.run_command(cmd, args)`,
recorded as the ordered list of issued command invocations. -/
def do_times_loop (cmd : String) (args : Args) : Nat → List (String × Args)
  | 0 => []
  | Nat.succ n => do_times_loop cmd args n ++ [(cmd, args)]

/-- `SbpDoTimesCommand.run_cmd`: the invocation trace of the wrapped
command.  For `undo`/`redo` the source defers `doit` via a timeout, but
the loop it eventually runs is the same. -/
def sbp_do_times (cmd : String) (_times : Nat) (args : Args) : List (String × Args) :=
  do_times_loop cmd args _times

/-- `SbpIncSearchEscapeCommand.run_cmd` (`src/jove.py` lines 1206-1211):
close the search session (`info.done()`), then re-issue the original
command with its original arguments. -/
def sbp_inc_search_escape (next_cmd : String) (next_args : Args) : List Effect :=
  [Effect.isearchDone, Effect.runCommand next_cmd next_args]

/-- One kill-ring entry as handed to `kill_ring.add(regions, forward,
join)`. -/
structure KillEntry where
  regions : List String
  forward : Bool
  join : Bool
  deriving DecidableEq, Repr

/-- The observable outcome of `MoveThenDeleteHelper.finish`: the final
selection, the regions erased from the buffer, and the kill-ring
additions. -/
structure FinishResult where
  selection : List Region
  deleted : List Region
  killAdds : List KillEntry
  deriving Repr

/-- The per-pair kill region of `MoveThenDeleteHelper.finish`
(`src/jove.py` lines 577-581): `Region(old.begin(), new.end())` when
`old < new`, else `Region(new.begin(), old.end())`. -/
def pairRegion (old new_ : Region) : Region :=
  if Region.lt old new_ then ⟨old.begin, new_.end_⟩ else ⟨new_.begin, old.end_⟩

/-- The list of paired kill regions, `zip`ping `orig_cursors` with the
post-movement cursors exactly as the source's `for old,new in zip(...)`. -/
def pairedRegions (orig new_ : List Region) : List Region :=
  (orig.zip new_).map (fun p => pairRegion p.1 p.2)

/-- Insertion of one region into a sorted region list, mirroring how the
host `Selection` container keeps regions in document order
(`Region.__lt__` order). -/
def insertRegion (r : Region) : List Region → List Region
  | [] => [r]
  | x :: xs => if Region.lt r x then r :: x :: xs else x :: insertRegion r xs

/-- The host `Selection` after `clear()` followed by `add` of each paired
region: the regions in document order (spec section 3: a cursor set is
"an ordered sequence"). -/
def sortRegions (l : List Region) : List Region :=
  l.foldl (fun acc r => insertRegion r acc) []

/-- The overlap scan of `MoveThenDeleteHelper.finish` (`src/jove.py`
lines 584-589): `for i, c in enumerate(cursors[1:]): if
cursors[i].contains(c.begin())`. -/
def regions_overlap : List Region → Bool
  | c1 :: c2 :: rest => c1.contains c2.begin || regions_overlap (c2 :: rest)
  | _ => false

/-- Host `view.substr(region)`: the buffer text in `[begin, end)`. -/
def substrBuf (buf : String) (r : Region) : String :=
  String.mk ((buf.toList.drop r.begin).take (r.end_ - r.begin))

/-- `MoveThenDeleteHelper.finish` (`src/jove.py` lines 566-603).
`orig` is the snapshot taken when the helper was opened, `new_` the
cursor set after the movement command ran; `forward` is the helper's
direction flag and `lastWasKill` models `util.state.last_was_kill_cmd()`
(the kill-ring `join` flag). -/
def finish (buf : String) (forward lastWasKill : Bool)
    (orig new_ : List Region) : FinishResult :=
  let sel := sortRegions (pairedRegions orig new_)
  if regions_overlap sel then
    { selection := orig, deleted := [], killAdds := [] }
  else
    { selection := sel
      deleted := sel
      killAdds := [{ regions := sel.map (substrBuf buf), forward := forward,
                     join := lastWasKill }] }

/-! ### Association-list (argument dictionary) lemmas -/

theorem Args.get?_set_self (a : Args) (k : String) (v : Value) :
    Args.get? (Args.set a k v) k = some v := by
  induction a with
  | nil => simp [Args.set, Args.get?]
  | cons hd tl ih =>
      obtain ⟨k', w⟩ := hd
      by_cases h : k' = k <;> simp [Args.set, Args.get?, h, ih]

theorem Args.get?_set_ne (a : Args) (k key : String) (v : Value) (h : k ≠ key) :
    Args.get? (Args.set a k v) key = Args.get? a key := by
  induction a with
  | nil => simp [Args.set, Args.get?, h]
  | cons hd tl ih =>
      obtain ⟨k', w⟩ := hd
      by_cases h' : k' = k
      · subst h'
        simp [Args.set, Args.get?, h]
      · simp only [Args.set, Args.get?, if_neg h']
        by_cases h'' : k' = key <;> simp [h'', ih]

theorem Args.set_of_get?_none (a : Args) (k : String) (v : Value)
    (h : Args.get? a k = none) : Args.set a k v = a ++ [(k, v)] := by
  induction a with
  | nil => simp [Args.set]
  | cons hd tl ih =>
      obtain ⟨k', w⟩ := hd
      by_cases h' : k' = k
      · simp [Args.get?, h'] at h
      · simp [Args.get?, h'] at h
        simp [Args.set, h', ih h]

theorem Args.get?_append_none (a b : Args) (k : String) (h : Args.get? a k = none) :
    Args.get? (a ++ b) k = Args.get? b k := by
  induction a with
  | nil => simp
  | cons hd tl ih =>
      obtain ⟨k', w⟩ := hd
      by_cases h' : k' = k
      · simp [Args.get?, h'] at h
      · simp [Args.get?, h'] at h ⊢
        exact ih h

theorem Args.set_append_left (a b : Args) (k : String) (v w : Value)
    (h : Args.get? a k = some w) : Args.set (a ++ b) k v = Args.set a k v ++ b := by
  induction a with
  | nil => simp [Args.get?] at h
  | cons hd tl ih =>
      obtain ⟨k', w'⟩ := hd
      by_cases h' : k' = k
      · simp [Args.set, h']
      · simp [Args.get?, h'] at h
        simp [Args.set, h', ih h]

theorem Args.remove_append (a b : Args) (k : String) :
    Args.remove (a ++ b) k = Args.remove a k ++ Args.remove b k := by
  induction a with
  | nil => simp [Args.remove]
  | cons hd tl ih =>
      obtain ⟨k', w⟩ := hd
      by_cases h' : k' = k <;> simp [Args.remove, h', ih]

theorem Args.remove_of_get?_none (a : Args) (k : String) (h : Args.get? a k = none) :
    Args.remove a k = a := by
  induction a with
  | nil => simp [Args.remove]
  | cons hd tl ih =>
      obtain ⟨k', w⟩ := hd
      by_cases h' : k' = k
      · simp [Args.get?, h'] at h
      · simp [Args.get?, h'] at h
        simp [Args.remove, h', ih h]

/-! ### `sbp_do_times` loop lemmas -/

theorem do_times_loop_length (cmd : String) (args : Args) (n : Nat) :
    (do_times_loop cmd args n).length = n := by
  induction n with
  | zero => rfl
  | succ n ih => simp [do_times_loop, ih]

theorem do_times_loop_mem (cmd : String) (args : Args) (n : Nat) :
    ∀ inv ∈ do_times_loop cmd args n, inv = (cmd, args) := by
  induction n with
  | zero => simp [do_times_loop]
  | succ n ih =>
      intro inv hinv
      simp [do_times_loop] at hinv
      rcases hinv with h | h
      · exact ih inv h
      · exact h

/-! ### Prefix-argument accumulator lemmas -/

theorem ua_int_of_supplied (st : ViewState) (v : Int) (h : st.argument_supplied = true) :
    sbp_universal_argument st (UToken.int v)
      = { st with argument_value := st.argument_value * 10 + v } := by
  simp [sbp_universal_argument, h]

theorem ua_negative_of_supplied (st : ViewState) (h : st.argument_supplied = true) :
    (sbp_universal_argument st UToken.negative).argument_value = -st.argument_value := by
  simp [sbp_universal_argument, h]

theorem applyUTokens_digits (ds : List Nat) (st : ViewState)
    (h : st.argument_supplied = true) :
    (applyUTokens st (ds.map digitToken)).argument_supplied = true ∧
    (applyUTokens st (ds.map digitToken)).argument_value
      = st.argument_value * (10 : Int) ^ ds.length + (specDigits ds : Int) := by
  induction ds generalizing st with
  | nil => simp [applyUTokens, specDigits, h]
  | cons d tl ih =>
      have step : applyUTokens st ((d :: tl).map digitToken)
          = applyUTokens (sbp_universal_argument st (digitToken d))
              (tl.map digitToken) := by
        simp [applyUTokens]
      have hfirst : sbp_universal_argument st (digitToken d)
          = { st with argument_value := st.argument_value * 10 + (d : Int) } := by
        simp [digitToken, sbp_universal_argument, h]
      rw [step, hfirst]
      have ih' := ih { st with argument_value := st.argument_value * 10 + (d : Int) } (by simp [h])
      refine ⟨ih'.1, ?_⟩
      rw [ih'.2]
      simp only [List.length_cons, specDigits]
      push_cast
      ring

theorem applyUTokens_by_four (m : Nat) (st : ViewState)
    (h : st.argument_supplied = true) :
    (applyUTokens st (List.replicate m UToken.by_four)).argument_supplied = true ∧
    (applyUTokens st (List.replicate m UToken.by_four)).argument_value
      = st.argument_value * (4 : Int) ^ m := by
  induction m generalizing st with
  | zero => simp [applyUTokens, h]
  | succ m ih =>
      have step : applyUTokens st (List.replicate (m + 1) UToken.by_four)
          = applyUTokens (sbp_universal_argument st UToken.by_four)
              (List.replicate m UToken.by_four) := by
        simp [applyUTokens, List.replicate_succ]
      rw [step]
      have hstep : sbp_universal_argument st UToken.by_four
          = { st with argument_value := st.argument_value * 4 } := by
        simp [sbp_universal_argument, h]
      rw [hstep]
      have ih' := ih { st with argument_value := st.argument_value * 4 } (by simp [h])
      refine ⟨ih'.1, ?_⟩
      rw [ih'.2]
      ring

/-! ### Kill-region pairing lemmas -/

theorem pairedRegions_get? (orig new_ : List Region) (i : Nat) (o n : Region)
    (ho : orig[i]? = some o) (hn : new_[i]? = some n) :
    (pairedRegions orig new_)[i]? = some (pairRegion o n) := by
  induction orig generalizing new_ i with
  | nil => simp at ho
  | cons x xs ih =>
      cases new_ with
      | nil => simp at hn
      | cons y ys =>
          cases i with
          | zero =>
              simp at ho hn
              simp [pairedRegions, ho, hn]
          | succ i =>
              simp at ho hn
              simpa [pairedRegions] using ih ys i ho hn

theorem pairRegion_point (p q : Nat) :
    pairRegion (pointRegion p) (pointRegion q) = { a := min p q, b := max p q } := by
  simp only [pairRegion, pointRegion, Region.lt, Region.begin, Region.end_]
  split_ifs with h1 h2 h2 <;>
    simp_all [Region.mk.injEq, Region.begin, Region.end_] <;> omega

theorem pairRegion_comm (o n : Region) : pairRegion o n = pairRegion n o := by
  obtain ⟨a, b⟩ := o
  obtain ⟨c, d⟩ := n
  simp only [pairRegion, Region.lt, Region.begin, Region.end_]
  split_ifs <;> simp_all [Region.mk.injEq, Region.begin, Region.end_] <;> omega

/-! ### Claim theorems -/

/-- C1: kill-transaction abort is atomic.  When `MoveThenDeleteHelper.finish`
computes the paired kill regions and the adjacent-overlap scan (in document
order) fires, the transaction performs zero deletions, adds nothing to the
kill ring, and the resulting selection is exactly the pre-movement snapshot
`orig` — the abort leaves the interaction state as it was (idempotent
abort). -/
theorem finish_overlap_aborts (buf : String) (forward lastWasKill : Bool)
    (orig new_ : List Region)
    (h : regions_overlap (sortRegions (pairedRegions orig new_)) = true) :
    finish buf forward lastWasKill orig new_
      = { selection := orig, deleted := [], killAdds := [] } := by
  simp [finish, h]

/-- Witness for C1: two cursors moving forward over each other's target
(0→6 and 5→8 in `"abcdefgh"`) produce overlapping kill regions `[0,6]`,
`[5,8]`; `finish` aborts, restoring the original cursors and touching
neither buffer nor kill ring. -/
theorem finish_overlap_aborts_witness :
    regions_overlap (sortRegions (pairedRegions
        [⟨0, 0⟩, ⟨5, 5⟩] [⟨6, 6⟩, ⟨8, 8⟩])) = true
    ∧ finish "abcdefgh" true false [⟨0, 0⟩, ⟨5, 5⟩] [⟨6, 6⟩, ⟨8, 8⟩]
        = { selection := [⟨0, 0⟩, ⟨5, 5⟩], deleted := [], killAdds := [] } :=
  ⟨by decide, finish_overlap_aborts "abcdefgh" true false _ _ (by decide)⟩

/-- C3: in `MoveThenDeleteHelper.finish`, the kill region for index `i` pairs
`orig[i]` with `new_[i]` and spans from the minimum to the maximum of the two
cursor positions; the pairing is symmetric, so the region is the same whether
the movement went forward or backward from the original cursor. -/
theorem pair_region_min_max (ps qs : List Nat) (i p q : Nat)
    (hp : ps[i]? = some p) (hq : qs[i]? = some q) :
    (pairedRegions (ps.map pointRegion) (qs.map pointRegion))[i]?
        = some { a := min p q, b := max p q }
    ∧ ∀ o n : Region, pairRegion o n = pairRegion n o := by
  constructor
  · have hp' : (ps.map pointRegion)[i]? = some (pointRegion p) := by
      simp [List.getElem?_map, hp]
    have hq' : (qs.map pointRegion)[i]? = some (pointRegion q) := by
      simp [List.getElem?_map, hq]
    rw [pairedRegions_get? _ _ _ _ _ hp' hq', pairRegion_point]
  · exact pairRegion_comm

/-- Witness for C3: cursor 1 of `[2, 9]` moved backwards to position 4;
the kill region is `[4, 9]` regardless of direction. -/
theorem pair_region_min_max_witness :
    (pairedRegions ([2, 9].map pointRegion) ([7, 4].map pointRegion))[1]?
        = some { a := 4, b := 9 }
    ∧ pairRegion (pointRegion 9) (pointRegion 4)
        = pairRegion (pointRegion 4) (pointRegion 9) := by
  have h := pair_region_min_max [2, 9] [7, 4] 1 9 4 rfl rfl
  exact ⟨h.1, h.2 (pointRegion 9) (pointRegion 4)⟩

/-- C4: feeding the accumulator a digit sequence (first digit sets the value,
each further digit appends decimally via `value = value*10 + digit`) yields
the base-10 integer those digits spell, and a trailing negate token flips the
sign of that value. -/
theorem digits_accumulate_base10 (vs : ViewState) (d : Nat) (ds : List Nat)
    (h : vs.argument_supplied = false) :
    (applyUTokens vs ((d :: ds).map digitToken)).argument_value
        = (specDigits (d :: ds) : Int)
    ∧ (applyUTokens vs
          ((d :: ds).map digitToken ++ [UToken.negative])).argument_value
        = -(specDigits (d :: ds) : Int) := by
  have step : applyUTokens vs ((d :: ds).map digitToken)
      = applyUTokens (sbp_universal_argument vs (digitToken d))
          (ds.map digitToken) := by
    simp [applyUTokens]
  have hfirst : sbp_universal_argument vs (digitToken d)
      = { vs with argument_supplied := true, argument_value := (d : Int) } := by
    simp [digitToken, sbp_universal_argument, h]
  have hdig := applyUTokens_digits ds
      { vs with argument_supplied := true, argument_value := (d : Int) } (by simp)
  have hval : (applyUTokens vs ((d :: ds).map digitToken)).argument_value
      = (specDigits (d :: ds) : Int) := by
    rw [step, hfirst, hdig.2]
    simp only [specDigits]
    push_cast
    ring
  refine ⟨hval, ?_⟩
  have hsup : (applyUTokens vs ((d :: ds).map digitToken)).argument_supplied
      = true := by
    rw [step, hfirst]
    exact hdig.1
  have hneg : (sbp_universal_argument (applyUTokens vs ((d :: ds).map digitToken))
      UToken.negative).argument_value
      = -(applyUTokens vs ((d :: ds).map digitToken)).argument_value :=
    ua_negative_of_supplied _ hsup
  calc (applyUTokens vs ((d :: ds).map digitToken ++ [UToken.negative])).argument_value
      = (sbp_universal_argument (applyUTokens vs ((d :: ds).map digitToken))
          UToken.negative).argument_value := by
        simp [applyUTokens, List.foldl_append]
    _ = -(specDigits (d :: ds) : Int) := by rw [hneg, hval]

/-- Witness for C4: digits 4, 2 spell 42; with a trailing negate, -42. -/
theorem digits_accumulate_base10_witness :
    (applyUTokens ViewState.initial
        ([4, 2].map digitToken)).argument_value = 42
    ∧ (applyUTokens ViewState.initial
        ([4, 2].map digitToken ++ [UToken.negative])).argument_value
        = -42 := by
  have h := digits_accumulate_base10 ViewState.initial 4 [2] rfl
  exact ⟨by rw [h.1]; rfl, by rw [h.2]; rfl⟩

/-- C9: applying the by-four token `k ≥ 1` times with no intervening digits
yields 4^k: the first application sets the value to 4, each later one
multiplies it by 4. -/
theorem by_four_powers (vs : ViewState) (k : Nat)
    (h : vs.argument_supplied = false) (hk : 1 ≤ k) :
    (applyUTokens vs (List.replicate k UToken.by_four)).argument_value = (4 : Int) ^ k := by
  obtain ⟨m, rfl⟩ : ∃ m, k = m + 1 := ⟨k - 1, by omega⟩
  have step : applyUTokens vs (List.replicate (m + 1) UToken.by_four)
      = applyUTokens (sbp_universal_argument vs UToken.by_four)
          (List.replicate m UToken.by_four) := by
    simp [applyUTokens, List.replicate_succ]
  have hfirst : sbp_universal_argument vs UToken.by_four
      = { vs with argument_supplied := true, argument_value := 4 } := by
    simp [sbp_universal_argument, h]
  rw [step, hfirst,
    (applyUTokens_by_four m { vs with argument_supplied := true, argument_value := 4 }
      (by simp)).2]
  ring

/-- Witness for C9: three by-four tokens yield 64. -/
theorem by_four_powers_witness :
    (applyUTokens ViewState.initial (List.replicate 3 UToken.by_four)).argument_value = 64 := by
  have h := by_four_powers ViewState.initial 3 rfl (by decide)
  rw [h]
  rfl

/-- C10: after a buffer-modification event, both modification watchers have
run: `ViewWatcher.on_modified` unconditionally turns active-mark mode off
(and `CmdWatcher.on_modified` clears `this_cmd`), so a live mark/point
selection never survives an edit. -/
theorem modified_disables_active_mark (vs : ViewState) :
    (viewWatcher_on_modified vs).active_mark = false
    ∧ (cmdWatcher_on_modified (viewWatcher_on_modified vs)).active_mark = false
    ∧ (cmdWatcher_on_modified (viewWatcher_on_modified vs)).this_cmd = none := by
  simp [viewWatcher_on_modified, cmdWatcher_on_modified, toggle_active_mark_mode]

/-- A concrete interaction state with a pending prefix argument, used as a
sample input. -/
def vsPending : ViewState :=
  { ViewState.initial with
      argument_supplied := true
      argument_value := 7
      last_cmd := some "yank" }

/-- C5: immediately after the post-dispatch hook of any command whose name
does not start with the reserved `"sbp_"` prefix completes,
`argument_supplied` is `false`, `argument_value` is `0` and `last_cmd` is
the command just executed; for reserved commands the hook leaves all three
fields untouched. -/
theorem post_command_resets_argument (vs : ViewState) (cmd : String) (justOne : Bool) :
    (startswith cmd "sbp_" = false →
      (on_post_text_command vs cmd justOne).1.argument_supplied = false
      ∧ (on_post_text_command vs cmd justOne).1.argument_value = 0
      ∧ (on_post_text_command vs cmd justOne).1.last_cmd = some cmd)
    ∧ (startswith cmd "sbp_" = true →
      (on_post_text_command vs cmd justOne).1.argument_supplied = vs.argument_supplied
      ∧ (on_post_text_command vs cmd justOne).1.argument_value = vs.argument_value
      ∧ (on_post_text_command vs cmd justOne).1.last_cmd = vs.last_cmd) := by
  constructor <;> intro h <;>
    simp only [on_post_text_command, toggle_active_mark_mode, h] <;>
    split_ifs <;> simp_all

/-- Witness for C5: a concrete state with a pending argument; the
non-reserved command `"move"` resets all three fields, the reserved
command `"sbp_register_kill"` leaves them untouched. -/
theorem post_command_resets_argument_witness :
    ((on_post_text_command vsPending "move" true).1.argument_supplied = false
      ∧ (on_post_text_command vsPending "move" true).1.argument_value = 0
      ∧ (on_post_text_command vsPending "move" true).1.last_cmd = some "move")
    ∧ (on_post_text_command vsPending "sbp_register_kill" true).1.argument_value = 7 :=
  ⟨(post_command_resets_argument vsPending "move" true).1 (by decide),
   ((post_command_resets_argument vsPending "sbp_register_kill" true).2 (by decide)).2.1⟩

/-- C7: while an incremental-search session is open, any text command other
than the session's own `sbp_inc_search` / `sbp_inc_search_escape` is
replaced by the search-escape wrapper carrying the original command and
arguments; the wrapper first closes the session (`done`) and then re-issues
the original command with its original arguments, so the session never
observes a foreign command. -/
theorem isearch_escape_redirect (vs : ViewState) (cmd : String) (args : Args)
    (h1 : cmd ≠ "sbp_inc_search") (h2 : cmd ≠ "sbp_inc_search_escape") :
    (on_text_command true vs cmd args).rewrite
        = some ("sbp_inc_search_escape",
            [("next_cmd", Value.str cmd), ("next_args", Value.dict args)])
    ∧ (on_text_command true vs cmd args).vs = vs
    ∧ sbp_inc_search_escape cmd args
        = [Effect.isearchDone, Effect.runCommand cmd args] := by
  refine ⟨?_, ?_, rfl⟩ <;> simp [on_text_command, h1, h2]

/-- Witness for C7: a plain `"move"` during a search is redirected through
the escape wrapper. -/
theorem isearch_escape_redirect_witness :
    (on_text_command true ViewState.initial "move"
        [("forward", Value.bool true)]).rewrite
      = some ("sbp_inc_search_escape",
          [("next_cmd", Value.str "move"),
           ("next_args", Value.dict [("forward", Value.bool true)])])
    ∧ sbp_inc_search_escape "move" [("forward", Value.bool true)]
      = [Effect.isearchDone,
         Effect.runCommand "move" [("forward", Value.bool true)]] :=
  ⟨(isearch_escape_redirect ViewState.initial "move" [("forward", Value.bool true)]
      (by decide) (by decide)).1,
   (isearch_escape_redirect ViewState.initial "move" [("forward", Value.bool true)]
      (by decide) (by decide)).2.2⟩

/-- C6 counterexample: the claim "whenever active-mark mode is on, any plain
cursor-motion command arriving without `extend` is rewritten by the
pre-dispatch hook with `extend = True`" fails when an incremental-search
session is open: there the hook rewrites `move` into the search-escape
wrapper instead. -/
theorem active_mark_extend_counterexample :
    ({ ViewState.initial with active_mark := true } : ViewState).active_mark = true
    ∧ argTruthy [] "extend" = false
    ∧ (on_text_command true { ViewState.initial with active_mark := true }
          "move" []).rewrite
        = some ("sbp_inc_search_escape",
            [("next_cmd", Value.str "move"), ("next_args", Value.dict [])])
    ∧ (on_text_command true { ViewState.initial with active_mark := true }
          "move" []).rewrite
        ≠ some ("move", Args.set [] "extend" (Value.bool true)) := by
  refine ⟨rfl, rfl, rfl, ?_⟩
  intro h
  simp [on_text_command, Args.set] at h

/-- C6 (amended): when no incremental-search session is open for the buffer,
active-mark mode is on and a plain cursor motion (`move` or `move_to`)
arrives whose `extend` argument is absent or falsy, the pre-dispatch hook
rewrites it into the same command with `extend = True`. -/
theorem active_mark_extend_rewrite (vs : ViewState) (cmd : String) (args : Args)
    (hm : vs.active_mark = true)
    (hc : cmd = "move" ∨ cmd = "move_to")
    (he : argTruthy args "extend" = false) :
    (on_text_command false vs cmd args).rewrite
      = some (cmd, Args.set args "extend" (Value.bool true)) := by
  rcases hc with rfl | rfl <;>
    simp [on_text_command, hm, he,
      (by decide : startswith "move" "sbp_" = false),
      (by decide : startswith "move_to" "sbp_" = false)]

/-- Witness for C6 (amended): with an active mark, `move_to` without
`extend` gains `extend = True`. -/
theorem active_mark_extend_rewrite_witness :
    (on_text_command false { ViewState.initial with active_mark := true }
        "move_to" [("to", Value.str "bof")]).rewrite
      = some ("move_to", [("to", Value.str "bof"), ("extend", Value.bool true)]) :=
  active_mark_extend_rewrite { ViewState.initial with active_mark := true }
    "move_to" [("to", Value.str "bof")] rfl (Or.inr rfl) rfl

/-- C8 counterexample: `drag_count` is not "incremented only when exactly one
region exists and `this_cmd` is the drag command" — the increment sits
outside the conditional, so a notification with `this_cmd = "move"` (not
the drag command) still increments it. -/
theorem drag_count_increment_counterexample :
    ({ ViewState.initial with this_cmd := some "move" } : ViewState).this_cmd
        ≠ some "drag_select"
    ∧ (on_selection_modified { ViewState.initial with this_cmd := some "move" }
          [⟨0, 0⟩]).drag_count
        = ({ ViewState.initial with this_cmd := some "move" } : ViewState).drag_count + 1 :=
  ⟨by decide, rfl⟩

/-- C8 (amended): every selection-changed notification increments
`drag_count` by exactly one; additionally, when exactly one region exists
and `this_cmd` is the drag command, a pre-increment `drag_count` of 2
snapshots the drag's start point (the region's anchor `a`) as the mark and
enables active-mark mode, while a pre-increment `drag_count` of 0 (a drag
collapsed to a point) turns active-mark mode off. -/
theorem selection_modified_drag (vs : ViewState) (sel : List Region) :
    (on_selection_modified vs sel).drag_count = vs.drag_count + 1
    ∧ (∀ r : Region, sel = [r] → vs.this_cmd = some "drag_select" →
        (vs.drag_count = 2 →
          (on_selection_modified vs sel).active_mark = true
          ∧ (on_selection_modified vs sel).mark_ring
              = [Region.mk r.a r.a] :: vs.mark_ring)
        ∧ (vs.drag_count = 0 →
          (on_selection_modified vs sel).active_mark = false)) := by
  constructor
  · cases sel with
    | nil => simp [on_selection_modified]
    | cons r rest =>
        simp only [on_selection_modified]
        split_ifs <;> simp [toggle_active_mark_mode, set_mark]
  · intro r hsel hcmd
    subst hsel
    constructor
    · intro h2
      simp [on_selection_modified, hcmd, h2, toggle_active_mark_mode, set_mark]
    · intro h0
      simp [on_selection_modified, hcmd, h0, toggle_active_mark_mode]

/-- Witness for C8 (amended): a third drag notification (`drag_count = 2`)
over region `(3, 7)` enables the active mark, pushes point 3 as the mark,
and bumps `drag_count` to 3. -/
theorem selection_modified_drag_witness :
    (on_selection_modified
        { ViewState.initial with this_cmd := some "drag_select", drag_count := 2 }
        [⟨3, 7⟩]).active_mark = true
    ∧ (on_selection_modified
        { ViewState.initial with this_cmd := some "drag_select", drag_count := 2 }
        [⟨3, 7⟩]).mark_ring = [[⟨3, 3⟩]]
    ∧ (on_selection_modified
        { ViewState.initial with this_cmd := some "drag_select", drag_count := 2 }
        [⟨3, 7⟩]).drag_count = 3 := by
  have h := selection_modified_drag
    { ViewState.initial with this_cmd := some "drag_select", drag_count := 2 } [⟨3, 7⟩]
  have h2 := (h.2 ⟨3, 7⟩ rfl rfl).1 rfl
  exact ⟨h2.1, h2.2, h.1⟩

theorem flipForward_get?_ne (a : Args) (key : String) (h : key ≠ "forward") :
    Args.get? (flipForward a) key = Args.get? a key := by
  unfold flipForward
  cases hf : Args.get? a "forward" with
  | none => rfl
  | some v => exact Args.get?_set_ne a "forward" key _ (Ne.symm h)

theorem doTimesArgs_spec (count : Int) (cmd : String) (args : Args)
    (hck : Args.get? args "cmd" = none) (htk : Args.get? args "_times" = none) :
    Args.get? (doTimesArgs count cmd args) "_times"
        = some (Value.int (count.natAbs : Int))
    ∧ Args.get? (doTimesArgs count cmd args) "cmd" = some (Value.str cmd)
    ∧ Args.remove (Args.remove (doTimesArgs count cmd args) "cmd") "_times"
        = (if count < 0 ∧ Args.containsKey args "forward" = true
           then flipForward args else args)
    ∧ (count < 0 → ∀ v : Value, Args.get? args "forward" = some v →
        Args.get? (doTimesArgs count cmd args) "forward"
          = some (Value.bool (!v.truthy))) := by
  have h1 : Args.set args "cmd" (Value.str cmd) = args ++ [("cmd", Value.str cmd)] :=
    Args.set_of_get?_none _ _ _ hck
  have htk' : Args.get? (args ++ [("cmd", Value.str cmd)]) "_times" = none := by
    rw [Args.get?_append_none _ _ _ htk]
    simp [Args.get?]
  have hshape : Args.set (Args.set args "cmd" (Value.str cmd)) "_times"
        (Value.int (count.natAbs : Int))
      = args ++ [("cmd", Value.str cmd), ("_times", Value.int (count.natAbs : Int))] := by
    rw [h1, Args.set_of_get?_none _ _ _ htk', List.append_assoc]
    rfl
  have hA1 : Args.get? (Args.set (Args.set args "cmd" (Value.str cmd)) "_times"
        (Value.int (count.natAbs : Int))) "_times"
      = some (Value.int (count.natAbs : Int)) := Args.get?_set_self _ _ _
  have hA2 : Args.get? (Args.set (Args.set args "cmd" (Value.str cmd)) "_times"
        (Value.int (count.natAbs : Int))) "cmd" = some (Value.str cmd) := by
    rw [Args.get?_set_ne _ _ _ _ (by decide)]
    exact Args.get?_set_self _ _ _
  have hA3 : Args.get? (Args.set (Args.set args "cmd" (Value.str cmd)) "_times"
        (Value.int (count.natAbs : Int))) "forward" = Args.get? args "forward" := by
    rw [Args.get?_set_ne _ _ _ _ (by decide), Args.get?_set_ne _ _ _ _ (by decide)]
  have hCC : Args.containsKey (Args.set (Args.set args "cmd" (Value.str cmd)) "_times"
        (Value.int (count.natAbs : Int))) "forward" = Args.containsKey args "forward" := by
    unfold Args.containsKey
    rw [hA3]
  by_cases hc : count < 0 ∧ Args.containsKey (Args.set (Args.set args "cmd"
      (Value.str cmd)) "_times" (Value.int (count.natAbs : Int))) "forward" = true
  · obtain ⟨hneg, hfw⟩ := hc
    obtain ⟨v, hv⟩ := Option.isSome_iff_exists.mp hfw
    have hv' : Args.get? args "forward" = some v := by rw [← hA3]; exact hv
    have hda : doTimesArgs count cmd args
        = Args.set (Args.set (Args.set args "cmd" (Value.str cmd)) "_times"
            (Value.int (count.natAbs : Int))) "forward" (Value.bool (!v.truthy)) := by
      simp only [doTimesArgs]
      rw [if_pos ⟨hneg, hfw⟩]
      unfold flipForward
      rw [hv]
    have hflip : flipForward args = Args.set args "forward" (Value.bool (!v.truthy)) := by
      unfold flipForward
      rw [hv']
    have hsetapp : Args.set (args ++ [("cmd", Value.str cmd),
          ("_times", Value.int (count.natAbs : Int))]) "forward" (Value.bool (!v.truthy))
        = Args.set args "forward" (Value.bool (!v.truthy))
            ++ [("cmd", Value.str cmd), ("_times", Value.int (count.natAbs : Int))] :=
      Args.set_append_left _ _ _ _ _ hv'
    have hgc : Args.get? (Args.set args "forward" (Value.bool (!v.truthy))) "cmd" = none := by
      rw [Args.get?_set_ne _ _ _ _ (by decide)]
      exact hck
    have hgt : Args.get? (Args.set args "forward" (Value.bool (!v.truthy))) "_times" = none := by
      rw [Args.get?_set_ne _ _ _ _ (by decide)]
      exact htk
    refine ⟨?_, ?_, ?_, ?_⟩
    · rw [hda, Args.get?_set_ne _ _ _ _ (by decide)]
      exact hA1
    · rw [hda, Args.get?_set_ne _ _ _ _ (by decide)]
      exact hA2
    · rw [hda, hshape, hsetapp, Args.remove_append, Args.remove_of_get?_none _ _ hgc]
      have hrem1 : Args.remove [("cmd", Value.str cmd),
          ("_times", Value.int (count.natAbs : Int))] "cmd"
            = [("_times", Value.int (count.natAbs : Int))] := by
        simp [Args.remove]
      rw [hrem1, Args.remove_append, Args.remove_of_get?_none _ _ hgt]
      have hrem2 : Args.remove [("_times", Value.int (count.natAbs : Int))] "_times"
          = ([] : Args) := by
        simp [Args.remove]
      rw [hrem2, List.append_nil, if_pos ⟨hneg, by rw [← hCC]; exact hfw⟩, hflip]
    · intro _ v' hv''
      have hvv : v' = v := by
        rw [hv'] at hv''
        exact (Option.some.inj hv'').symm
      rw [hda, hvv]
      exact Args.get?_set_self _ _ _
  · have hda : doTimesArgs count cmd args
        = Args.set (Args.set args "cmd" (Value.str cmd)) "_times"
            (Value.int (count.natAbs : Int)) := by
      simp only [doTimesArgs]
      rw [if_neg hc]
    refine ⟨?_, ?_, ?_, ?_⟩
    · rw [hda]
      exact hA1
    · rw [hda]
      exact hA2
    · have hck' : Args.get? (Args.set args "cmd" (Value.str cmd)) "cmd"
          = some (Value.str cmd) := Args.get?_set_self _ _ _
      rw [hda, hshape, Args.remove_append, Args.remove_of_get?_none _ _ hck]
      have hrem1 : Args.remove [("cmd", Value.str cmd),
          ("_times", Value.int (count.natAbs : Int))] "cmd"
            = [("_times", Value.int (count.natAbs : Int))] := by
        simp [Args.remove]
      rw [hrem1, Args.remove_append, Args.remove_of_get?_none _ _ htk]
      have hrem2 : Args.remove [("_times", Value.int (count.natAbs : Int))] "_times"
          = ([] : Args) := by
        simp [Args.remove]
      rw [hrem2, List.append_nil, if_neg (by rw [hCC] at hc; exact hc)]
    · intro hneg v hv'
      have hfw : Args.containsKey (Args.set (Args.set args "cmd" (Value.str cmd))
          "_times" (Value.int (count.natAbs : Int))) "forward" = true := by
        unfold Args.containsKey
        rw [hA3, hv']
        rfl
      exact absurd ⟨hneg, hfw⟩ hc

theorem on_text_repeatable_rewrite (vs : ViewState) (cmd : String) (args : Args)
    (hsup : vs.argument_supplied = true)
    (hrep : cmd ∈ repeatable_cmds)
    (hnocap : ¬((cmd = "move" ∨ cmd = "move_to") ∧ vs.active_mark = true ∧
        argTruthy args "extend" = false)) :
    (on_text_command false vs cmd args).rewrite
      = some ("sbp_do_times", doTimesArgs vs.get_count cmd args) := by
  simp only [repeatable_cmds, List.mem_cons, List.not_mem_nil, or_false] at hrep
  rcases hrep with rfl | rfl | rfl | rfl | rfl
  · cases hA : vs.active_mark with
    | false =>
        simp [on_text_command, hsup, hA,
          (by decide : startswith "move" "sbp_" = false), repeatable_cmds,
          ViewState.get_count]
    | true =>
        cases hE : argTruthy args "extend" with
        | false => exact absurd ⟨Or.inl rfl, hA, hE⟩ hnocap
        | true =>
            simp [on_text_command, hsup, hA, hE,
              (by decide : startswith "move" "sbp_" = false), repeatable_cmds,
          ViewState.get_count]
  · simp [on_text_command, hsup,
      (by decide : startswith "left_delete" "sbp_" = false), repeatable_cmds,
      ViewState.get_count]
  · simp [on_text_command, hsup,
      (by decide : startswith "right_delete" "sbp_" = false), repeatable_cmds,
      ViewState.get_count]
  · simp [on_text_command, hsup,
      (by decide : startswith "undo" "sbp_" = false), repeatable_cmds,
      ViewState.get_count]
  · simp [on_text_command, hsup,
      (by decide : startswith "redo" "sbp_" = false), repeatable_cmds,
      ViewState.get_count]

/-- A concrete interaction state with a supplied argument of 2 and an
active mark, used as a sample input. -/
def vsCap : ViewState :=
  { ViewState.initial with
      argument_supplied := true
      argument_value := 2
      active_mark := true }

/-- A concrete interaction state with a supplied negative argument
(count -2), used as a sample input. -/
def vsNeg2 : ViewState :=
  { ViewState.initial with
      argument_supplied := true
      argument_value := 2
      argument_negative := true }

/-- C2 counterexample: a repeatable command dispatched with an argument
supplied is not always rewritten into `sbp_do_times` — with active-mark
mode on, a plain `move` without `extend` is captured by the active-mark
extension rewrite first, even though an argument (value 2) is supplied. -/
theorem repeat_rewrite_counterexample :
    vsCap.argument_supplied = true
    ∧ vsCap.get_count = 2
    ∧ ("move" : String) ∈ repeatable_cmds
    ∧ (on_text_command false vsCap "move" [("forward", Value.bool true)]).rewrite
        = some ("move", [("forward", Value.bool true), ("extend", Value.bool true)])
    ∧ ("move" : String) ≠ "sbp_do_times" :=
  ⟨rfl, rfl, by decide, rfl, by decide⟩

/-- C2 (amended): when no incremental-search session is open and the
active-mark motion-extension rewrite does not capture the command first,
every repeatable command (`move`, `left_delete`, `right_delete`, `undo`,
`redo`) dispatched while an argument of value `N` has been supplied is
rewritten into an `sbp_do_times` invocation carrying `_times = abs(N)` and
`cmd`; the remaining keyword arguments equal the original arguments with
the `forward` flag inverted exactly once when `N < 0` and present (not per
iteration), and `sbp_do_times` then issues the underlying command exactly
`abs(N)` times, each time with those same arguments. -/
theorem repeat_rewrite_do_times (vs : ViewState) (cmd : String) (args : Args) (N : Int)
    (hsup : vs.argument_supplied = true)
    (hrep : cmd ∈ repeatable_cmds)
    (hN : vs.get_count = N)
    (hck : Args.get? args "cmd" = none)
    (htk : Args.get? args "_times" = none)
    (hnocap : ¬((cmd = "move" ∨ cmd = "move_to") ∧ vs.active_mark = true ∧
        argTruthy args "extend" = false)) :
    (on_text_command false vs cmd args).rewrite
        = some ("sbp_do_times", doTimesArgs N cmd args)
    ∧ Args.get? (doTimesArgs N cmd args) "_times"
        = some (Value.int (N.natAbs : Int))
    ∧ Args.get? (doTimesArgs N cmd args) "cmd" = some (Value.str cmd)
    ∧ Args.remove (Args.remove (doTimesArgs N cmd args) "cmd") "_times"
        = (if N < 0 ∧ Args.containsKey args "forward" = true
           then flipForward args else args)
    ∧ (sbp_do_times cmd N.natAbs
          (Args.remove (Args.remove (doTimesArgs N cmd args) "cmd") "_times")).length
        = N.natAbs
    ∧ (∀ inv ∈ sbp_do_times cmd N.natAbs
          (Args.remove (Args.remove (doTimesArgs N cmd args) "cmd") "_times"),
        inv = (cmd, Args.remove (Args.remove (doTimesArgs N cmd args) "cmd") "_times"))
    ∧ (N < 0 → ∀ v : Value, Args.get? args "forward" = some v →
        Args.get? (doTimesArgs N cmd args) "forward"
          = some (Value.bool (!v.truthy))) := by
  subst hN
  obtain ⟨hs1, hs2, hs3, hs4⟩ := doTimesArgs_spec vs.get_count cmd args hck htk
  exact ⟨on_text_repeatable_rewrite vs cmd args hsup hrep hnocap,
    hs1, hs2, hs3,
    do_times_loop_length cmd _ _,
    do_times_loop_mem cmd _ _,
    hs4⟩

/-- Witness for C2 (amended): `left_delete` with `forward = True` under a
count of -2 is rewritten to `sbp_do_times` with `_times = 2` and `forward`
inverted to `False`. -/
theorem repeat_rewrite_do_times_witness :
    ((on_text_command false vsNeg2 "left_delete"
        [("forward", Value.bool true)]).rewrite).map Prod.fst = some "sbp_do_times"
    ∧ ((on_text_command false vsNeg2 "left_delete"
        [("forward", Value.bool true)]).rewrite).map
          (fun p => Args.get? p.2 "_times") = some (some (Value.int 2))
    ∧ ((on_text_command false vsNeg2 "left_delete"
        [("forward", Value.bool true)]).rewrite).map
          (fun p => Args.get? p.2 "forward") = some (some (Value.bool false)) := by
  obtain ⟨h1, h2, h3, h4, h5, h6, h7⟩ :=
    repeat_rewrite_do_times vsNeg2 "left_delete" [("forward", Value.bool true)] (-2)
      rfl (by decide) (by decide) rfl rfl (by decide)
  rw [h1]
  refine ⟨rfl, ?_, ?_⟩
  · simpa using h2
  · simpa using h7 (by decide) (Value.bool true) rfl

end Jove
